import Mathlib

/-!
Verification of the Splunk log driver (`daemon/logger/splunk/splunk.go`).

The development shallowly embeds the driver's batching / retry / shutdown
logic as pure Lean functions and a labelled transition system, and proves
the specification claims about it.

Conventions of the embedding:
* a Go slice of `*splunkMessage` is a `List α` (the element type is kept
  abstract; concrete instances use `Nat`);
* the outcome of each HTTP send attempt is an oracle `ok : Nat → Bool`
  mapping the chunk's start offset to success/failure, standing for the
  external network;
* effects (records delivered by `tryPostMessages`, records written to the
  local diagnostic log) are made explicit as result fields.
-/

namespace Splunk

/-- The configuration fields of `splunkLogger` that the batching logic reads
(`postMessagesBatchSize` and `bufferMaximum` in the source). -/
structure Config where
  postMessagesBatchSize : Nat
  bufferMaximum : Nat
  deriving DecidableEq, Repr

/-- The visible outcome of one `postMessages` call: the records delivered by
successful `tryPostMessages` chunk sends, the records written to the local
diagnostic log (the per-record `log.G(...).Error` loop) and then dropped, and
the new unsent buffer returned to the worker. -/
structure FlushResult (α : Type) where
  sent : List α
  logged : List α
  buffer : List α
  deriving DecidableEq, Repr

/-- `listSlice l i j` is the Go slice expression `l[i:j]`. -/
def listSlice (l : List α) (i j : Nat) : List α :=
  (l.drop i).take (j - i)

/-- The loop of `postMessages` starting at index `i`:

```go
for i := 0; i < messagesLen; i += l.postMessagesBatchSize {
    upperBound := i + l.postMessagesBatchSize
    if upperBound > messagesLen { upperBound = messagesLen }
    if err := l.tryPostMessages(ctx, messages[i:upperBound]); err != nil {
        if messagesLen-i >= l.bufferMaximum || lastChance {
            if lastChance { upperBound = messagesLen }
            for j := i; j < upperBound; j++ { /* log messages[j] */ }
            return messages[upperBound:messagesLen]
        }
        return messages[i:messagesLen]
    }
}
return messages[:0]
```

The guard also requires `0 < bs` so that the recursion terminates; the Go
program never runs the loop with a non-positive batch size (the default is
1000), and every theorem below assumes `0 < bs`. -/
def postMessagesAux (bs bmax : Nat) (lastChance : Bool) (ok : Nat → Bool)
    (all : List α) (i : Nat) : FlushResult α :=
  if h : i < all.length ∧ 0 < bs then
    let len := all.length
    let ub := min (i + bs) len
    if ok i then
      let r := postMessagesAux bs bmax lastChance ok all (i + bs)
      { r with sent := listSlice all i ub ++ r.sent }
    else if bmax ≤ len - i ∨ lastChance then
      let ub2 := if lastChance then len else ub
      { sent := [], logged := listSlice all i ub2, buffer := listSlice all ub2 len }
    else
      { sent := [], logged := [], buffer := listSlice all i len }
  else
    { sent := [], logged := [], buffer := [] }
termination_by all.length - i
decreasing_by
  omega

/-- `postMessages` of the source: flush the buffer in chunks of at most
`postMessagesBatchSize`, with the retry / overflow policy applied at the
first failing chunk. -/
def postMessages (cfg : Config) (ok : Nat → Bool) (lastChance : Bool)
    (messages : List α) : FlushResult α :=
  postMessagesAux cfg.postMessagesBatchSize cfg.bufferMaximum lastChance ok messages 0

theorem listSlice_to_end (l : List α) (i : Nat) : listSlice l i l.length = l.drop i := by
  unfold listSlice
  exact List.take_of_length_le (by simp)

theorem listSlice_append_drop (l : List α) {i j : Nat} (h : i ≤ j) :
    listSlice l i j ++ l.drop j = l.drop i := by
  have hdj : l.drop j = (l.drop i).drop (j - i) := by
    rw [List.drop_drop]
    congr 1
    omega
  rw [listSlice, hdj, List.take_append_drop]

theorem listSlice_nil (l : List α) (i : Nat) : listSlice l i i = [] := by
  simp [listSlice]

/-- Every record of the suffix `all.drop i` is accounted for exactly once by
one flush call: it is delivered in a successful chunk, written to the
diagnostic log and dropped, or returned in the new unsent buffer. -/
theorem postMessagesAux_partition (bs bmax : Nat) (lc : Bool) (ok : Nat → Bool)
    (all : List α) (i : Nat) :
    (postMessagesAux bs bmax lc ok all i).sent ++
      (postMessagesAux bs bmax lc ok all i).logged ++
      (postMessagesAux bs bmax lc ok all i).buffer = all.drop i ∨
      ¬ (0 < bs) := by
  rcases Nat.eq_zero_or_pos bs with hbs0 | hbs0
  · exact Or.inr (by omega)
  refine Or.inl ?_
  induction i using postMessagesAux.induct bs bmax lc ok all with
  | case1 i h hok ih =>
    obtain ⟨hi, hbs⟩ := h
    rw [postMessagesAux]
    simp only [dif_pos (And.intro hi hbs), if_pos hok]
    simp only [List.append_assoc] at ih ⊢
    rw [ih]
    have hd : all.drop (i + bs) = all.drop (min (i + bs) all.length) := by
      rcases Nat.le_total (i + bs) all.length with h1 | h1
      · rw [Nat.min_eq_left h1]
      · rw [Nat.min_eq_right h1, List.drop_eq_nil_of_le h1, List.drop_length]
    rw [hd, listSlice_append_drop all (by omega)]
  | case2 i h len hok hover =>
    obtain ⟨hi, hbs⟩ := h
    rw [postMessagesAux]
    simp only [dif_pos (And.intro hi hbs), if_neg hok, if_pos hover]
    simp only [List.nil_append]
    by_cases hlc : lc
    · rw [if_pos hlc, listSlice_nil, List.append_nil, listSlice_to_end]
    · simp only [hlc]
      rw [if_neg (by simp), listSlice_to_end]
      exact listSlice_append_drop all (by omega)
  | case3 i h len hok hover =>
    obtain ⟨hi, hbs⟩ := h
    rw [postMessagesAux]
    simp only [dif_pos (And.intro hi hbs), if_neg hok, if_neg hover]
    simp [listSlice_to_end]
  | case4 i h =>
    rw [postMessagesAux]
    simp only [dif_neg h]
    have h1 : all.length ≤ i := by
      by_contra hcon
      exact h ⟨by omega, hbs0⟩
    simp [List.drop_eq_nil_of_le h1]

/-- The buffer returned by one flush call is a contiguous suffix of the
input: records only leave from the front. -/
theorem postMessagesAux_buffer_suffix (bs bmax : Nat) (lc : Bool) (ok : Nat → Bool)
    (all : List α) (i : Nat) :
    ∃ k, i ≤ k ∧ (postMessagesAux bs bmax lc ok all i).buffer = all.drop k := by
  induction i using postMessagesAux.induct bs bmax lc ok all with
  | case1 i h hok ih =>
    obtain ⟨hi, hbs⟩ := h
    obtain ⟨k, hk, hbuf⟩ := ih
    refine ⟨k, by omega, ?_⟩
    rw [postMessagesAux]
    simp only [dif_pos (And.intro hi hbs), if_pos hok]
    exact hbuf
  | case2 i h len hok hover =>
    obtain ⟨hi, hbs⟩ := h
    rw [postMessagesAux]
    simp only [dif_pos (And.intro hi hbs), if_neg hok, if_pos hover]
    by_cases hlc : lc
    · refine ⟨all.length, by omega, ?_⟩
      rw [if_pos hlc, listSlice_nil, List.drop_length]
    · refine ⟨min (i + bs) all.length, by omega, ?_⟩
      simp only [hlc]
      rw [if_neg (by simp), listSlice_to_end]
  | case3 i h len hok hover =>
    obtain ⟨hi, hbs⟩ := h
    rw [postMessagesAux]
    simp only [dif_pos (And.intro hi hbs), if_neg hok, if_neg hover]
    exact ⟨i, le_refl i, listSlice_to_end all i⟩
  | case4 i h =>
    rw [postMessagesAux]
    simp only [dif_neg h]
    exact ⟨max i all.length, le_max_left _ _,
      (List.drop_eq_nil_of_le (le_max_right _ _)).symm⟩

/-- Successful chunk sends only move the loop forward: if the first `k`
chunks (at offsets `i₀, i₀+bs, …`) succeed, the flush starting at `i₀`
produces the same diagnostic log and the same returned buffer as the flush
starting at `i₀ + k*bs`. -/
theorem postMessagesAux_skip (bs bmax : Nat) (lc : Bool) (ok : Nat → Bool) (all : List α)
    (k : Nat) : ∀ i₀ : Nat, (∀ j < k, ok (i₀ + j * bs) = true) →
    i₀ + k * bs ≤ all.length → 0 < bs →
    (postMessagesAux bs bmax lc ok all i₀).logged =
      (postMessagesAux bs bmax lc ok all (i₀ + k * bs)).logged ∧
    (postMessagesAux bs bmax lc ok all i₀).buffer =
      (postMessagesAux bs bmax lc ok all (i₀ + k * bs)).buffer := by
  induction k with
  | zero => intro i₀ _ _ _; simp
  | succ k ih =>
    intro i₀ hok hle hbs
    have hm : i₀ + (k + 1) * bs = (i₀ + bs) + k * bs := by ring
    have hpos : 0 < (k + 1) * bs := Nat.mul_pos (Nat.succ_pos k) hbs
    have hi₀ : i₀ < all.length := by omega
    have hok0 : ok i₀ = true := by
      have := hok 0 (Nat.succ_pos k)
      simpa using this
    have ihx := ih (i₀ + bs)
      (fun j hj => by
        have := hok (j + 1) (by omega)
        have harith : i₀ + (j + 1) * bs = (i₀ + bs) + j * bs := by ring
        rwa [harith] at this)
      (by omega) hbs
    rw [postMessagesAux]
    simp only [dif_pos (And.intro hi₀ hbs), if_pos hok0]
    rw [hm]
    exact ihx

/-- A terminal flush (`lastChance = true`) always returns the empty buffer:
every chunk either succeeds, or the whole remaining range is logged and the
function returns `messages[messagesLen:messagesLen]`. -/
theorem postMessagesAux_lastChance_buffer (bs bmax : Nat) (ok : Nat → Bool)
    (all : List α) (i : Nat) :
    (postMessagesAux bs bmax true ok all i).buffer = [] := by
  induction i using postMessagesAux.induct bs bmax true ok all with
  | case1 i h hok ih =>
    rw [postMessagesAux]
    simp only [dif_pos h, if_pos hok]
    exact ih
  | case2 i h len hok hover =>
    rw [postMessagesAux]
    simp only [dif_pos h, if_neg hok]
    simp [listSlice_nil]
  | case3 i h len hok hover =>
    exact absurd (Or.inr rfl) hover
  | case4 i h =>
    rw [postMessagesAux]
    simp only [dif_neg h]

/-- C1, counterexample to the claimed drop range. With batch size 2, buffer
maximum 3, a three-record buffer `[0, 1, 2]`, every send failing and
`lastChance = false`, the first chunk fails with 3 remaining records,
`3 ≥ bufferMaximum`. The claim says every remaining record "up to
bufferMaximum worth" (all three) is logged and dropped, leaving an empty
buffer; the code logs and drops only one batch (`[0, 1]`) and returns
`[2]`. -/
theorem C1_counterexample_drop_range :
    (postMessages (α := Nat) ⟨2, 3⟩ (fun _ => false) false [0, 1, 2]).logged = [0, 1] ∧
    (postMessages (α := Nat) ⟨2, 3⟩ (fun _ => false) false [0, 1, 2]).buffer = [2] ∧
    ¬ ((postMessages (α := Nat) ⟨2, 3⟩ (fun _ => false) false [0, 1, 2]).logged = [0, 1, 2] ∧
       (postMessages (α := Nat) ⟨2, 3⟩ (fun _ => false) false [0, 1, 2]).buffer = []) := by
  refine ⟨?_, ?_, ?_⟩ <;> simp [postMessages, postMessagesAux, listSlice]

/-- C1 (amended): when the chunk starting at offset `i = k·batchSize` is the
first to fail and (`lastChance`, or at least `bufferMaximum` records remain
from `i`), every record from `i` up to the end of the drop range is emitted
to the diagnostic log, one entry per record, and dropped; the drop range is
the whole rest of the buffer when `lastChance` is true and otherwise **one
batch** (at most `batchSize` records, not `bufferMaximum` worth); the
function returns everything after the dropped range as the new unsent
buffer — the empty buffer when `lastChance` is true. -/
theorem C1_overflow_drop_range (cfg : Config) (ok : Nat → Bool) (lc : Bool)
    (msgs : List α) (k : Nat)
    (hbs : 0 < cfg.postMessagesBatchSize)
    (hfirst : ∀ j < k, ok (j * cfg.postMessagesBatchSize) = true)
    (hfail : ok (k * cfg.postMessagesBatchSize) = false)
    (hlt : k * cfg.postMessagesBatchSize < msgs.length)
    (hover : cfg.bufferMaximum ≤ msgs.length - k * cfg.postMessagesBatchSize ∨ lc = true) :
    (postMessages cfg ok lc msgs).logged =
      listSlice msgs (k * cfg.postMessagesBatchSize)
        (if lc then msgs.length
         else min (k * cfg.postMessagesBatchSize + cfg.postMessagesBatchSize) msgs.length) ∧
    (postMessages cfg ok lc msgs).buffer =
      msgs.drop
        (if lc then msgs.length
         else min (k * cfg.postMessagesBatchSize + cfg.postMessagesBatchSize) msgs.length) ∧
    (lc = true → (postMessages cfg ok lc msgs).buffer = []) := by
  have hskip := postMessagesAux_skip cfg.postMessagesBatchSize cfg.bufferMaximum lc ok msgs k 0
    (fun j hj => by simpa using hfirst j hj) (by omega) hbs
  rw [Nat.zero_add] at hskip
  have hunf : postMessagesAux cfg.postMessagesBatchSize cfg.bufferMaximum lc ok msgs
      (k * cfg.postMessagesBatchSize) =
      { sent := [],
        logged := listSlice msgs (k * cfg.postMessagesBatchSize)
          (if lc then msgs.length
           else min (k * cfg.postMessagesBatchSize + cfg.postMessagesBatchSize) msgs.length),
        buffer := listSlice msgs
          (if lc then msgs.length
           else min (k * cfg.postMessagesBatchSize + cfg.postMessagesBatchSize) msgs.length)
          msgs.length } := by
    have hfail' : ¬ (ok (k * cfg.postMessagesBatchSize) = true) := by simp [hfail]
    rw [postMessagesAux]
    simp only [dif_pos (And.intro hlt hbs), if_neg hfail', if_pos hover]
  refine ⟨?_, ?_, ?_⟩
  · rw [postMessages, hskip.1, hunf]
  · rw [postMessages, hskip.2, hunf]
    exact listSlice_to_end msgs _
  · intro hlc
    subst hlc
    exact postMessagesAux_lastChance_buffer cfg.postMessagesBatchSize cfg.bufferMaximum
      ok msgs 0

/-- Witness for `C1_overflow_drop_range` at batch size 2, buffer maximum 3,
all sends failing, buffer `[0, 1, 2]`, failing chunk `k = 0`. -/
theorem C1_overflow_drop_range_witness :
    (postMessages (α := Nat) ⟨2, 3⟩ (fun _ => false) false [0, 1, 2]).logged = [0, 1] ∧
    (postMessages (α := Nat) ⟨2, 3⟩ (fun _ => false) false [0, 1, 2]).buffer = [2] := by
  have h := C1_overflow_drop_range (α := Nat) ⟨2, 3⟩ (fun _ => false) false [0, 1, 2] 0
    (by decide) (fun j hj => absurd hj (Nat.not_lt_zero j)) rfl (by decide)
    (Or.inl (by decide))
  obtain ⟨h1, h2, -⟩ := h
  constructor
  · rw [h1]; simp [listSlice]
  · rw [h2]; simp

/-- C2: with `lastChance = false`, when the chunk starting at offset
`i = k·batchSize` is the first to fail and strictly fewer than
`bufferMaximum` records remain from `i`, the flush stops immediately and
returns exactly the records from offset `i` onward, unchanged and in order,
with nothing written to the diagnostic log and nothing dropped. -/
theorem C2_retry_below_maximum (cfg : Config) (ok : Nat → Bool) (msgs : List α) (k : Nat)
    (hbs : 0 < cfg.postMessagesBatchSize)
    (hfirst : ∀ j < k, ok (j * cfg.postMessagesBatchSize) = true)
    (hfail : ok (k * cfg.postMessagesBatchSize) = false)
    (hlt : k * cfg.postMessagesBatchSize < msgs.length)
    (hbelow : msgs.length - k * cfg.postMessagesBatchSize < cfg.bufferMaximum) :
    (postMessages cfg ok false msgs).buffer = msgs.drop (k * cfg.postMessagesBatchSize) ∧
    (postMessages cfg ok false msgs).logged = [] := by
  have hskip := postMessagesAux_skip cfg.postMessagesBatchSize cfg.bufferMaximum false ok msgs k 0
    (fun j hj => by simpa using hfirst j hj) (by omega) hbs
  rw [Nat.zero_add] at hskip
  have hunf : postMessagesAux cfg.postMessagesBatchSize cfg.bufferMaximum false ok msgs
      (k * cfg.postMessagesBatchSize) =
      { sent := [], logged := [],
        buffer := listSlice msgs (k * cfg.postMessagesBatchSize) msgs.length } := by
    have hfail' : ¬ (ok (k * cfg.postMessagesBatchSize) = true) := by simp [hfail]
    have hbelow' : ¬ (cfg.bufferMaximum ≤ msgs.length - k * cfg.postMessagesBatchSize ∨
        false = true) := by
      simp only [Bool.false_eq_true, or_false]
      omega
    rw [postMessagesAux]
    simp only [dif_pos (And.intro hlt hbs), if_neg hfail', if_neg hbelow']
  constructor
  · rw [postMessages, hskip.2, hunf]
    exact listSlice_to_end msgs _
  · rw [postMessages, hskip.1, hunf]

/-- Witness for `C2_retry_below_maximum` at batch size 2, buffer maximum 10,
all sends failing, buffer `[0, 1, 2]`, failing chunk `k = 0`. -/
theorem C2_retry_below_maximum_witness :
    (postMessages (α := Nat) ⟨2, 10⟩ (fun _ => false) false [0, 1, 2]).buffer = [0, 1, 2] ∧
    (postMessages (α := Nat) ⟨2, 10⟩ (fun _ => false) false [0, 1, 2]).logged = [] := by
  have h := C2_retry_below_maximum (α := Nat) ⟨2, 10⟩ (fun _ => false) [0, 1, 2] 0
    (by decide) (fun j hj => absurd hj (Nat.not_lt_zero j)) rfl (by decide) (by decide)
  obtain ⟨h1, h2⟩ := h
  refine ⟨?_, h2⟩
  rw [h1]
  simp

/-- Corollary of `postMessagesAux_partition` at offset 0, for a positive
batch size. -/
theorem postMessages_partition (cfg : Config) (ok : Nat → Bool) (lc : Bool)
    (msgs : List α) (hbs : 0 < cfg.postMessagesBatchSize) :
    (postMessages cfg ok lc msgs).sent ++ (postMessages cfg ok lc msgs).logged ++
      (postMessages cfg ok lc msgs).buffer = msgs := by
  have h := postMessagesAux_partition cfg.postMessagesBatchSize cfg.bufferMaximum lc ok msgs 0
  rcases h with h | h
  · simpa using h
  · exact absurd hbs h

/-- C10: for every input buffer, batch-send oracle and `lastChance` flag,
the buffer returned by `postMessages` is a contiguous suffix of the input
(records leave only from the front), and every input record is accounted
for exactly once: delivered in a successful chunk, logged-and-dropped, or
returned in the new buffer, with all relative order preserved. -/
theorem C10_flush_suffix_and_partition (cfg : Config) (ok : Nat → Bool) (lc : Bool)
    (msgs : List α) (hbs : 0 < cfg.postMessagesBatchSize) :
    (∃ k, (postMessages cfg ok lc msgs).buffer = msgs.drop k) ∧
    (postMessages cfg ok lc msgs).sent ++ (postMessages cfg ok lc msgs).logged ++
      (postMessages cfg ok lc msgs).buffer = msgs := by
  constructor
  · obtain ⟨k, -, hk⟩ := postMessagesAux_buffer_suffix cfg.postMessagesBatchSize
      cfg.bufferMaximum lc ok msgs 0
    exact ⟨k, hk⟩
  · have h := postMessagesAux_partition cfg.postMessagesBatchSize cfg.bufferMaximum lc ok msgs 0
    rcases h with h | h
    · simpa using h
    · exact absurd hbs h

/-- Witness for `C10_flush_suffix_and_partition` at batch size 2, buffer
maximum 4, the first chunk succeeding and the second failing, buffer
`[0, 1, 2, 3, 4]`. -/
theorem C10_flush_suffix_and_partition_witness :
    (∃ k, (postMessages (α := Nat) ⟨2, 4⟩ (fun i => i == 0) false [0, 1, 2, 3, 4]).buffer =
      [0, 1, 2, 3, 4].drop k) ∧
    (postMessages (α := Nat) ⟨2, 4⟩ (fun i => i == 0) false [0, 1, 2, 3, 4]).sent ++
      (postMessages (α := Nat) ⟨2, 4⟩ (fun i => i == 0) false [0, 1, 2, 3, 4]).logged ++
      (postMessages (α := Nat) ⟨2, 4⟩ (fun i => i == 0) false [0, 1, 2, 3, 4]).buffer =
      [0, 1, 2, 3, 4] :=
  C10_flush_suffix_and_partition ⟨2, 4⟩ (fun i => i == 0) false [0, 1, 2, 3, 4] (by decide)

/-- The worker's handling of one message received from the stream channel
(`case message, open := <-l.stream` with `open = true`):

```go
messages = append(messages, message)
if len(messages)%l.postMessagesBatchSize == 0 {
    messages = l.postMessages(messages, false)
}
```

The first component is the flush outcome (the identity outcome when no send
is triggered); the second records whether a non-final send was triggered. -/
def workerOnMessage (cfg : Config) (ok : Nat → Bool) (buffer : List α) (m : α) :
    FlushResult α × Bool :=
  let messages := buffer ++ [m]
  if messages.length % cfg.postMessagesBatchSize == 0 then
    (postMessages cfg ok false messages, true)
  else
    ({ sent := [], logged := [], buffer := messages }, false)

theorem workerOnMessage_partition (cfg : Config) (ok : Nat → Bool) (buffer : List α)
    (m : α) (hbs : 0 < cfg.postMessagesBatchSize) :
    (workerOnMessage cfg ok buffer m).1.sent ++ (workerOnMessage cfg ok buffer m).1.logged ++
      (workerOnMessage cfg ok buffer m).1.buffer = buffer ++ [m] := by
  simp only [workerOnMessage]
  split
  · exact postMessages_partition cfg ok false (buffer ++ [m]) hbs
  · simp

/-- The pipeline state shared between producers (`Log` → `queueMessageAsync`,
`Close`) and the worker goroutine:
* `stream` — the contents of the `stream` channel, in order;
* `buffer` — the worker's in-memory `messages` slice;
* `closing` — `closedCond != nil` (set by `Close`, which also closes the
  channel, so no further records arrive after those already in `stream`);
* `closed` — the `closed` flag the worker sets after its terminal flush
  (`Close` waits on `closedCond` until it is set);
* `accepted` / `delivered` / `dropped` — history variables recording every
  record that entered the stream, was delivered by a successful chunk send,
  or was written to the diagnostic log and dropped. -/
structure PipelineState (α : Type) where
  stream : List α
  buffer : List α
  closing : Bool
  closed : Bool
  accepted : List α
  delivered : List α
  dropped : List α
  deriving DecidableEq, Repr

/-- `queueMessageAsync` of the source: fail with the "driver is closed"
error when `Close` has begun (`closedCond != nil`), otherwise put the
message on the stream channel and report success. -/
def queueMessageAsync (s : PipelineState α) (m : α) :
    Except String (PipelineState α) :=
  if s.closing then
    Except.error "splunk: driver is closed"
  else
    Except.ok { s with stream := s.stream ++ [m], accepted := s.accepted ++ [m] }

/-- The initial pipeline state created by `New`: empty channel, empty worker
buffer, not closing, not closed. -/
def initState : PipelineState α :=
  { stream := [], buffer := [], closing := false, closed := false,
    accepted := [], delivered := [], dropped := [] }

/-- One transition of the pipeline. Producer transitions: `enqueue` (a
successful `queueMessageAsync`) and `closeBegin` (`Close` setting
`closedCond` and closing the channel). Worker transitions: `recv` (a message
arrives from the open channel, with the batch-size flush trigger), `tick`
(the `postMessagesFrequency` timer fires) and `finish` (the channel is
closed and drained; the worker performs the terminal `postMessages(messages,
true)`, sets `closed` and signals `Close`). Each send-performing transition
carries its own network oracle `ok`. -/
inductive Step (cfg : Config) : PipelineState α → PipelineState α → Prop
  | enqueue (s : PipelineState α) (m : α) (h : s.closing = false) :
      Step cfg s { s with stream := s.stream ++ [m], accepted := s.accepted ++ [m] }
  | recv (s : PipelineState α) (m : α) (rest : List α) (ok : Nat → Bool)
      (hstream : s.stream = m :: rest) (hrun : s.closed = false) :
      Step cfg s { s with
        stream := rest
        buffer := (workerOnMessage cfg ok s.buffer m).1.buffer
        delivered := s.delivered ++ (workerOnMessage cfg ok s.buffer m).1.sent
        dropped := s.dropped ++ (workerOnMessage cfg ok s.buffer m).1.logged }
  | tick (s : PipelineState α) (ok : Nat → Bool) (hrun : s.closed = false) :
      Step cfg s { s with
        buffer := (postMessages cfg ok false s.buffer).buffer
        delivered := s.delivered ++ (postMessages cfg ok false s.buffer).sent
        dropped := s.dropped ++ (postMessages cfg ok false s.buffer).logged }
  | closeBegin (s : PipelineState α) (h : s.closing = false) :
      Step cfg s { s with closing := true }
  | finish (s : PipelineState α) (ok : Nat → Bool) (hclosing : s.closing = true)
      (hstream : s.stream = []) (hrun : s.closed = false) :
      Step cfg s { s with
        buffer := (postMessages cfg ok true s.buffer).buffer
        delivered := s.delivered ++ (postMessages cfg ok true s.buffer).sent
        dropped := s.dropped ++ (postMessages cfg ok true s.buffer).logged
        closed := true }

/-- States reachable from the freshly constructed pipeline. -/
def Reachable (cfg : Config) (s : PipelineState α) : Prop :=
  Relation.ReflTransGen (Step cfg) (initState (α := α)) s

/-- The inductive invariant: every accepted record is delivered, dropped,
or still pending in the worker buffer or the channel; and once `closed` is
set, the pipeline is closing and nothing is pending. -/
def Inv (s : PipelineState α) : Prop :=
  (∀ m ∈ s.accepted, m ∈ s.delivered ∨ m ∈ s.dropped ∨ m ∈ s.buffer ∨ m ∈ s.stream) ∧
  (s.closed = true → s.closing = true ∧ s.stream = [] ∧ s.buffer = [])

theorem initState_inv : Inv (initState (α := α)) := by
  constructor
  · intro m hm
    simp [initState] at hm
  · intro h
    simp [initState] at h

theorem step_preserves_inv (cfg : Config) (hbs : 0 < cfg.postMessagesBatchSize)
    {s s' : PipelineState α} (hstep : Step cfg s s') (hinv : Inv s) : Inv s' := by
  obtain ⟨hacc, hcl⟩ := hinv
  cases hstep with
  | enqueue m h =>
    constructor
    · intro x hx
      simp only [List.mem_append, List.mem_singleton] at hx
      rcases hx with hx | hx
      · rcases hacc x hx with h1 | h1 | h1 | h1
        · exact Or.inl h1
        · exact Or.inr (Or.inl h1)
        · exact Or.inr (Or.inr (Or.inl h1))
        · exact Or.inr (Or.inr (Or.inr (by simp [h1])))
      · exact Or.inr (Or.inr (Or.inr (by simp [hx])))
    · intro hc
      obtain ⟨hclosing, -, -⟩ := hcl hc
      rw [hclosing] at h
      cases h
  | recv m rest ok hstream hrun =>
    have hpart := workerOnMessage_partition cfg ok s.buffer m hbs
    constructor
    · intro x hx
      have hsplit : x ∈ s.buffer ++ [m] →
          x ∈ (workerOnMessage cfg ok s.buffer m).1.sent ∨
          x ∈ (workerOnMessage cfg ok s.buffer m).1.logged ∨
          x ∈ (workerOnMessage cfg ok s.buffer m).1.buffer := by
        intro hmem
        rw [← hpart] at hmem
        simpa [List.mem_append, or_assoc] using hmem
      rcases hacc x hx with h1 | h1 | h1 | h1
      · exact Or.inl (by simp [h1])
      · exact Or.inr (Or.inl (by simp [h1]))
      · rcases hsplit (by simp [h1]) with h2 | h2 | h2
        · exact Or.inl (by simp [h2])
        · exact Or.inr (Or.inl (by simp [h2]))
        · exact Or.inr (Or.inr (Or.inl h2))
      · rw [hstream] at h1
        rcases List.mem_cons.mp h1 with h2 | h2
        · subst h2
          rcases hsplit (by simp) with h3 | h3 | h3
          · exact Or.inl (by simp [h3])
          · exact Or.inr (Or.inl (by simp [h3]))
          · exact Or.inr (Or.inr (Or.inl h3))
        · exact Or.inr (Or.inr (Or.inr h2))
    · intro hc
      exact absurd hc (by simp [hrun])
  | tick ok hrun =>
    have hpart := postMessages_partition cfg ok false s.buffer hbs
    constructor
    · intro x hx
      have hsplit : x ∈ s.buffer →
          x ∈ (postMessages cfg ok false s.buffer).sent ∨
          x ∈ (postMessages cfg ok false s.buffer).logged ∨
          x ∈ (postMessages cfg ok false s.buffer).buffer := by
        intro hmem
        rw [← hpart] at hmem
        simpa [List.mem_append, or_assoc] using hmem
      rcases hacc x hx with h1 | h1 | h1 | h1
      · exact Or.inl (by simp [h1])
      · exact Or.inr (Or.inl (by simp [h1]))
      · rcases hsplit h1 with h2 | h2 | h2
        · exact Or.inl (by simp [h2])
        · exact Or.inr (Or.inl (by simp [h2]))
        · exact Or.inr (Or.inr (Or.inl h2))
      · exact Or.inr (Or.inr (Or.inr h1))
    · intro hc
      exact absurd hc (by simp [hrun])
  | closeBegin h =>
    constructor
    · intro x hx
      exact hacc x hx
    · intro hc
      obtain ⟨-, h2, h3⟩ := hcl hc
      exact ⟨rfl, h2, h3⟩
  | finish ok hclosing hstream hrun =>
    have hpart := postMessages_partition cfg ok true s.buffer hbs
    constructor
    · intro x hx
      have hsplit : x ∈ s.buffer →
          x ∈ (postMessages cfg ok true s.buffer).sent ∨
          x ∈ (postMessages cfg ok true s.buffer).logged ∨
          x ∈ (postMessages cfg ok true s.buffer).buffer := by
        intro hmem
        rw [← hpart] at hmem
        simpa [List.mem_append, or_assoc] using hmem
      rcases hacc x hx with h1 | h1 | h1 | h1
      · exact Or.inl (by simp [h1])
      · exact Or.inr (Or.inl (by simp [h1]))
      · rcases hsplit h1 with h2 | h2 | h2
        · exact Or.inl (by simp [h2])
        · exact Or.inr (Or.inl (by simp [h2]))
        · exact Or.inr (Or.inr (Or.inl h2))
      · rw [hstream] at h1
        cases h1
    · intro _
      refine ⟨hclosing, hstream, ?_⟩
      exact postMessagesAux_lastChance_buffer cfg.postMessagesBatchSize cfg.bufferMaximum
        ok s.buffer 0

theorem reachable_inv (cfg : Config) (hbs : 0 < cfg.postMessagesBatchSize)
    {s : PipelineState α} (h : Reachable cfg s) : Inv s := by
  induction h with
  | refl => exact initState_inv
  | tail _ hstep ih => exact step_preserves_inv cfg hbs hstep ih

/-- C3: `Close` returns only once the worker has set `closed`, and `closed`
is set only by the `finish` transition, which performs the terminal
`postMessages(messages, true)` send attempt on everything still buffered.
In every reachable state with `closed = true`, the channel and the worker
buffer are empty and every record ever accepted has been delivered by a
successful chunk send or written to the diagnostic log and dropped —
nothing is still pending and nothing vanished silently. -/
theorem C3_close_drains (cfg : Config) (s : PipelineState α)
    (hbs : 0 < cfg.postMessagesBatchSize)
    (hreach : Reachable cfg s) (hclosed : s.closed = true) :
    s.stream = [] ∧ s.buffer = [] ∧
      ∀ m ∈ s.accepted, m ∈ s.delivered ∨ m ∈ s.dropped := by
  obtain ⟨hacc, hcl⟩ := reachable_inv cfg hbs hreach
  obtain ⟨-, hstream, hbuffer⟩ := hcl hclosed
  refine ⟨hstream, hbuffer, ?_⟩
  intro m hm
  rcases hacc m hm with h1 | h1 | h1 | h1
  · exact Or.inl h1
  · exact Or.inr h1
  · rw [hbuffer] at h1
    cases h1
  · rw [hstream] at h1
    cases h1

/-- Intermediate and final states of the concrete shutdown trace used to
witness `C3_close_drains`: enqueue record `5`, worker receives it (no batch
trigger at batch size 2), `Close` begins, terminal flush fails. -/
def c3State1 : PipelineState Nat :=
  { stream := [5], buffer := [], closing := false, closed := false,
    accepted := [5], delivered := [], dropped := [] }

def c3State2 : PipelineState Nat :=
  { stream := [], buffer := [5], closing := false, closed := false,
    accepted := [5], delivered := [], dropped := [] }

def c3State3 : PipelineState Nat :=
  { stream := [], buffer := [5], closing := true, closed := false,
    accepted := [5], delivered := [], dropped := [] }

def c3State4 : PipelineState Nat :=
  { stream := [], buffer := [], closing := true, closed := true,
    accepted := [5], delivered := [], dropped := [5] }

/-- Witness for `C3_close_drains`: along the concrete trace the terminal
flush fails, record `5` is logged and dropped, and after `closed` is set
nothing is pending. -/
theorem C3_close_drains_witness :
    c3State4.stream = [] ∧ c3State4.buffer = [] ∧
    ∀ m ∈ c3State4.accepted, m ∈ c3State4.delivered ∨ m ∈ c3State4.dropped := by
  have hwm : workerOnMessage (α := Nat) ⟨2, 4⟩ (fun _ => false) [] 5 =
      ({ sent := [], logged := [], buffer := [5] }, false) := by
    simp [workerOnMessage]
  have hpm : postMessages (α := Nat) ⟨2, 4⟩ (fun _ => false) true [5] =
      { sent := [], logged := [5], buffer := [] } := by
    simp [postMessages, postMessagesAux, listSlice]
  have r1 : Step (α := Nat) ⟨2, 4⟩ initState c3State1 := by
    have h := @Step.enqueue (⟨2, 4⟩ : Config) Nat initState 5 rfl
    simpa [initState, c3State1] using h
  have r2 : Step (α := Nat) ⟨2, 4⟩ c3State1 c3State2 := by
    have h := @Step.recv (⟨2, 4⟩ : Config) Nat c3State1 5 [] (fun _ => false) rfl rfl
    simpa [c3State1, c3State2, hwm] using h
  have r3 : Step (α := Nat) ⟨2, 4⟩ c3State2 c3State3 := by
    have h := @Step.closeBegin (⟨2, 4⟩ : Config) Nat c3State2 rfl
    simpa [c3State2, c3State3] using h
  have r4 : Step (α := Nat) ⟨2, 4⟩ c3State3 c3State4 := by
    have h := @Step.finish (⟨2, 4⟩ : Config) Nat c3State3 (fun _ => false) rfl rfl rfl
    simpa [c3State3, c3State4, hpm] using h
  have hreach : Reachable (α := Nat) ⟨2, 4⟩ c3State4 :=
    Relation.ReflTransGen.tail
      (Relation.ReflTransGen.tail
        (Relation.ReflTransGen.tail
          (Relation.ReflTransGen.tail Relation.ReflTransGen.refl r1) r2) r3) r4
  exact C3_close_drains ⟨2, 4⟩ c3State4 (by decide) hreach rfl

/-- C4: after the worker appends a newly received record to its buffer, a
non-final send (`postMessages(messages, false)`) is triggered if and only
if the new buffer length is an exact multiple of the configured batch size
(`len(messages) % l.postMessagesBatchSize == 0`); the trigger depends only
on the length, not on the timer. -/
theorem C4_batch_size_trigger (cfg : Config) (ok : Nat → Bool) (buffer : List α) (m : α)
    (hbs : 0 < cfg.postMessagesBatchSize) :
    ((workerOnMessage cfg ok buffer m).2 = true ↔
      cfg.postMessagesBatchSize ∣ (buffer.length + 1)) ∧
    ((workerOnMessage cfg ok buffer m).2 = true →
      (workerOnMessage cfg ok buffer m).1 = postMessages cfg ok false (buffer ++ [m])) ∧
    ((workerOnMessage cfg ok buffer m).2 = false →
      (workerOnMessage cfg ok buffer m).1 =
        { sent := [], logged := [], buffer := buffer ++ [m] }) := by
  simp only [workerOnMessage]
  split
  · rename_i hcond
    have hmod : (buffer.length + 1) % cfg.postMessagesBatchSize = 0 := by
      simpa using hcond
    refine ⟨?_, ?_, ?_⟩
    · simp [Nat.dvd_iff_mod_eq_zero, hmod]
    · intro _
      rfl
    · intro hfalse
      cases hfalse
  · rename_i hcond
    have hmod : ¬ ((buffer.length + 1) % cfg.postMessagesBatchSize = 0) := by
      simpa using hcond
    refine ⟨?_, ?_, ?_⟩
    · constructor
      · intro hfalse
        cases hfalse
      · intro hdvd
        exact absurd (Nat.dvd_iff_mod_eq_zero.mp hdvd) hmod
    · intro htrue
      cases htrue
    · intro _
      rfl

/-- Witness for `C4_batch_size_trigger` at batch size 2, buffer `[0]`,
incoming record `1`: the new length 2 is a multiple of 2, so a non-final
send is triggered. -/
theorem C4_batch_size_trigger_witness :
    ((workerOnMessage (α := Nat) ⟨2, 4⟩ (fun _ => true) [0] 1).2 = true ↔
      2 ∣ ([0] : List Nat).length + 1) ∧
    ((workerOnMessage (α := Nat) ⟨2, 4⟩ (fun _ => true) [0] 1).2 = true →
      (workerOnMessage (α := Nat) ⟨2, 4⟩ (fun _ => true) [0] 1).1 =
        postMessages ⟨2, 4⟩ (fun _ => true) false ([0] ++ [1])) ∧
    ((workerOnMessage (α := Nat) ⟨2, 4⟩ (fun _ => true) [0] 1).2 = false →
      (workerOnMessage (α := Nat) ⟨2, 4⟩ (fun _ => true) [0] 1).1 =
        { sent := [], logged := [], buffer := [0] ++ [1] }) :=
  C4_batch_size_trigger ⟨2, 4⟩ (fun _ => true) [0] 1 (by decide)

/-- C5: an enqueue (`Log` → `queueMessageAsync`) performed after shutdown
has begun (`closedCond != nil`, i.e. `closing = true`) fails immediately
with the "driver is closed" error; an enqueue performed before shutdown
begins returns no error and appends the record to the stream. -/
theorem C5_enqueue_after_close (s : PipelineState α) (m : α) :
    (s.closing = true →
      queueMessageAsync s m = Except.error "splunk: driver is closed") ∧
    (s.closing = false →
      queueMessageAsync s m =
        Except.ok { s with stream := s.stream ++ [m], accepted := s.accepted ++ [m] }) := by
  constructor
  · intro hc
    simp [queueMessageAsync, hc]
  · intro hc
    simp [queueMessageAsync, hc]

/-- Witness for `C5_enqueue_after_close`: at a concrete closing state the
enqueue fails with the "driver is closed" error, and at the initial state it
succeeds. -/
theorem C5_enqueue_after_close_witness :
    queueMessageAsync
      ({ stream := [], buffer := [], closing := true, closed := false,
         accepted := [], delivered := [], dropped := [] } : PipelineState Nat) 7 =
      Except.error "splunk: driver is closed" ∧
    queueMessageAsync (initState (α := Nat)) 7 =
      Except.ok { (initState : PipelineState Nat) with stream := [7], accepted := [7] } := by
  constructor
  · exact (C5_enqueue_after_close
      ({ stream := [], buffer := [], closing := true, closed := false,
         accepted := [], delivered := [], dropped := [] } : PipelineState Nat) 7).1 rfl
  · have h := (C5_enqueue_after_close (initState (α := Nat)) 7).2 rfl
    simpa [initState] using h

/-- `unicode.IsSpace` of the Go standard library: the Unicode `White_Space`
property (`\t`, `\n`, `\v`, `\f`, `\r`, space, NEL, NBSP, and the
higher-plane space code points). `strings.TrimSpace` trims exactly these. -/
def goIsSpace (c : Char) : Bool :=
  decide (9 ≤ c.toNat ∧ c.toNat ≤ 13) || decide (c.toNat = 32) ||
  decide (c.toNat = 0x85) || decide (c.toNat = 0xA0) || decide (c.toNat = 0x1680) ||
  decide (0x2000 ≤ c.toNat ∧ c.toNat ≤ 0x200A) || decide (c.toNat = 0x2028) ||
  decide (c.toNat = 0x2029) || decide (c.toNat = 0x202F) || decide (c.toNat = 0x205F) ||
  decide (c.toNat = 0x3000)

/-- `strings.TrimSpace`: remove leading and trailing Unicode white space. -/
def trimSpace (s : List Char) : List Char :=
  ((s.dropWhile goIsSpace).reverse.dropWhile goIsSpace).reverse

/-- `splunkLoggerRaw.Log` of the source:

```go
if strings.TrimSpace(string(msg.Line)) == "" {
    return nil
}
message := l.createSplunkMessage(msg)
message.Event = string(append(l.prefix, msg.Line...))
return l.queueMessageAsync(message)
```

The result is the event payload to enqueue; `none` means the call returned
success without enqueuing anything. -/
def rawLog (pfx line : List Char) : Option (List Char) :=
  if trimSpace line = [] then
    none
  else
    some (pfx ++ line)

theorem trimSpace_eq_nil_iff (l : List Char) :
    trimSpace l = [] ↔ l.all goIsSpace = true := by
  unfold trimSpace
  rw [List.reverse_eq_nil_iff, List.dropWhile_eq_nil_iff, List.all_eq_true]
  constructor
  · intro h x hx
    have hsplit : l.takeWhile goIsSpace ++ l.dropWhile goIsSpace = l :=
      List.takeWhile_append_dropWhile goIsSpace l
    rw [← hsplit] at hx
    rcases List.mem_append.mp hx with hmem | hmem
    · exact List.mem_takeWhile_imp hmem
    · exact h x (List.mem_reverse.mpr hmem)
  · intro h x hx
    exact h x ((List.dropWhile_sublist goIsSpace).mem (List.mem_reverse.mp hx))

/-- C6: a raw-format `Log` call whose line is empty or all whitespace after
trimming returns success without enqueuing any record, and any other line
is formatted (prefix ++ line) and enqueued. -/
theorem C6_raw_whitespace_suppressed (pfx line : List Char) :
    (rawLog pfx line = none ↔ line.all goIsSpace = true) ∧
    (¬ line.all goIsSpace = true → rawLog pfx line = some (pfx ++ line)) := by
  constructor
  · rw [rawLog]
    split
    · rename_i htrim
      simp only [true_iff]
      exact (trimSpace_eq_nil_iff line).mp htrim
    · rename_i htrim
      constructor
      · intro hsome
        cases hsome
      · intro hall
        exact absurd ((trimSpace_eq_nil_iff line).mpr hall) htrim
  · intro hall
    rw [rawLog, if_neg (fun htrim => hall ((trimSpace_eq_nil_iff line).mp htrim))]

/-- Witness for `C6_raw_whitespace_suppressed`: the line `" a"` is not all
whitespace, so it is enqueued with the tag prefix prepended; the line
`"  "` is all whitespace, so the call succeeds without enqueuing. -/
theorem C6_raw_whitespace_suppressed_witness :
    rawLog ['t'] [' ', 'a'] = some ['t', ' ', 'a'] ∧
    rawLog ['t'] [' ', ' '] = none := by
  constructor
  · have h := (C6_raw_whitespace_suppressed ['t'] [' ', 'a']).2 (by decide)
    exact h
  · exact (C6_raw_whitespace_suppressed ['t'] [' ', ' ']).1.mpr (by decide)

/-- `maxResponseSize` of the source: the cap on how much of an HTTP error
response body is read into the returned error. -/
def maxResponseSize : Nat := 1024

/-- The configuration fields of `splunkLogger` that `tryPostMessages`
reads. -/
structure SenderConfig where
  gzipCompression : Bool
  gzipCompressionLevel : Int
  indexAck : Bool
  deriving DecidableEq, Repr

/-- A compressor/decompressor pair standing for the external
`compress/gzip` package (`gzip.NewWriterLevel` … `Close` on the write side).
A correct codec restores the exact bytes written. -/
structure GzipCodec where
  compress : Int → List Nat → List Nat
  decompress : List Nat → List Nat

/-- The HTTP request that `tryPostMessages` issues: the body bytes, whether
the `Content-Encoding: gzip` header is set, and whether the
`X-Splunk-Request-Channel` header is set. -/
structure HttpRequestModel where
  body : List Nat
  contentEncodingGzip : Bool
  hasRequestChannel : Bool
  deriving DecidableEq, Repr

/-- The remote collector response. -/
structure HttpResponse where
  status : Nat
  body : List Nat
  deriving DecidableEq, Repr

/-- The error produced for a non-200 response: status plus the response
body truncated by `io.LimitReader(resp.Body, maxResponseSize)`. -/
structure SendError where
  status : Nat
  body : List Nat
  deriving DecidableEq, Repr

/-- The bytes `tryPostMessages` writes into its output buffer: each record's
JSON serialization in order (`json.Marshal(message)` then `writer.Write`),
the whole stream gzip-wrapped at the configured level when compression is
enabled. The per-record serialization `encode` stands for `json.Marshal`. -/
def requestBody (cfg : SenderConfig) (codec : GzipCodec) (encode : α → List Nat)
    (messages : List α) : List Nat :=
  if cfg.gzipCompression then
    codec.compress cfg.gzipCompressionLevel (messages.map encode).flatten
  else
    (messages.map encode).flatten

/-- `tryPostMessages` of the source: success with no HTTP request on an
empty record set; otherwise one POST whose body is `requestBody`, with the
gzip content-encoding header iff compression is on and the request-channel
header iff index acknowledgment is on; success iff the response status is
exactly 200, and on any other status an error carrying the response body
truncated to `maxResponseSize` bytes. The first component is the request
issued (`none` when no request was made); the response `resp` stands for
the remote collector. -/
def tryPostMessages (cfg : SenderConfig) (codec : GzipCodec) (encode : α → List Nat)
    (resp : HttpResponse) (messages : List α) :
    Option HttpRequestModel × Except SendError Unit :=
  if messages.length = 0 then
    (none, Except.ok ())
  else
    let req : HttpRequestModel :=
      { body := requestBody cfg codec encode messages
        contentEncodingGzip := cfg.gzipCompression
        hasRequestChannel := cfg.indexAck }
    if resp.status = 200 then
      (some req, Except.ok ())
    else
      (some req,
        Except.error { status := resp.status, body := resp.body.take maxResponseSize })

/-- C7: an empty record set returns success with no HTTP request; a
non-empty record set issues one request and succeeds iff the response
status is exactly 200; any other status yields an error capturing the
response body truncated to at most `maxResponseSize = 1024` bytes. -/
theorem C7_send_success_iff_200 (cfg : SenderConfig) (codec : GzipCodec)
    (encode : α → List Nat) (resp : HttpResponse) (messages : List α) :
    (messages = [] →
      tryPostMessages cfg codec encode resp messages = (none, Except.ok ())) ∧
    (messages ≠ [] →
      (∃ req, (tryPostMessages cfg codec encode resp messages).1 = some req) ∧
      ((tryPostMessages cfg codec encode resp messages).2 = Except.ok () ↔
        resp.status = 200) ∧
      (resp.status ≠ 200 →
        (tryPostMessages cfg codec encode resp messages).2 =
          Except.error { status := resp.status, body := resp.body.take maxResponseSize } ∧
        (resp.body.take maxResponseSize).length ≤ maxResponseSize)) := by
  constructor
  · intro hnil
    subst hnil
    rfl
  · intro hne
    have hlen : ¬ (messages.length = 0) := by
      simpa [List.length_eq_zero] using hne
    unfold tryPostMessages
    rw [if_neg hlen]
    by_cases hst : resp.status = 200
    · refine ⟨⟨_, by rw [if_pos hst]⟩, ?_, fun hne200 => absurd hst hne200⟩
      rw [if_pos hst]
      simp [hst]
    · refine ⟨⟨_, by rw [if_neg hst]⟩, ?_, fun _ => ?_⟩
      · rw [if_neg hst]
        simp [hst]
      · refine ⟨by rw [if_neg hst], ?_⟩
        simpa using List.length_take_le maxResponseSize resp.body

/-- Witness for `C7_send_success_iff_200` with one record, gzip off, a 503
response with a long body. -/
theorem C7_send_success_iff_200_witness :
    (tryPostMessages (α := Nat) ⟨false, -1, false⟩ ⟨fun _ d => d, id⟩ (fun n => [n])
        ⟨503, List.replicate 5000 7⟩ [42]).2 =
      Except.error { status := 503, body := (List.replicate 5000 7).take maxResponseSize } ∧
    ((List.replicate 5000 7).take maxResponseSize).length ≤ maxResponseSize := by
  have h := (C7_send_success_iff_200 (α := Nat) ⟨false, -1, false⟩ ⟨fun _ d => d, id⟩
    (fun n => [n]) ⟨503, List.replicate 5000 7⟩ [42]).2 (by simp)
  exact h.2.2 (by decide)

/-- C8: with a correct gzip codec, the request body produced with
compression enabled, once decompressed, is byte-identical to the request
body produced for the same record set with compression disabled — both are
the concatenation of the per-record JSON serializations. -/
theorem C8_gzip_roundtrip (cfg : SenderConfig) (codec : GzipCodec)
    (encode : α → List Nat) (messages : List α)
    (hcodec : ∀ lvl data, codec.decompress (codec.compress lvl data) = data) :
    codec.decompress
        (requestBody { cfg with gzipCompression := true } codec encode messages) =
      requestBody { cfg with gzipCompression := false } codec encode messages ∧
    requestBody { cfg with gzipCompression := false } codec encode messages =
      (messages.map encode).flatten := by
  constructor
  · simp [requestBody, hcodec]
  · simp [requestBody]

/-- Witness for `C8_gzip_roundtrip` with the identity codec and a two-record
set. -/
theorem C8_gzip_roundtrip_witness :
    GzipCodec.decompress ⟨fun _ d => d, id⟩
        (requestBody (α := Nat) ⟨true, -1, false⟩ ⟨fun _ d => d, id⟩
          (fun n => [n, n + 1]) [3, 9]) =
      requestBody (α := Nat) ⟨false, -1, false⟩ ⟨fun _ d => d, id⟩
        (fun n => [n, n + 1]) [3, 9] ∧
    requestBody (α := Nat) ⟨false, -1, false⟩ ⟨fun _ d => d, id⟩
        (fun n => [n, n + 1]) [3, 9] =
      ([3, 9].map (fun n => [n, n + 1])).flatten := by
  have h := C8_gzip_roundtrip (α := Nat) ⟨true, -1, false⟩
    ⟨fun _ d => d, id⟩ (fun n => [n, n + 1]) [3, 9] (fun _ _ => rfl)
  simpa using h

/-- Option keys recognized by the driver. -/
def splunkURLKey : String := "splunk-url"

def splunkTokenKey : String := "splunk-token"

def splunkCAPathKey : String := "splunk-capath"

def splunkCANameKey : String := "splunk-caname"

def splunkInsecureSkipVerifyKey : String := "splunk-insecureskipverify"

def splunkFormatKey : String := "splunk-format"

def splunkVerifyConnectionKey : String := "splunk-verify-connection"

def splunkGzipCompressionKey : String := "splunk-gzip"

def splunkGzipCompressionLevelKey : String := "splunk-gzip-level"

def splunkIndexAcknowledgment : String := "splunk-index-acknowledgment"

def tagKey : String := "tag"

/-- Environment variables for the advanced tunables. -/
def envVarPostMessagesFrequency : String := "SPLUNK_LOGGING_DRIVER_POST_MESSAGES_FREQUENCY"

def envVarPostMessagesBatchSize : String := "SPLUNK_LOGGING_DRIVER_POST_MESSAGES_BATCH_SIZE"

def envVarBufferMaximum : String := "SPLUNK_LOGGING_DRIVER_BUFFER_MAX"

def envVarStreamChannelSize : String := "SPLUNK_LOGGING_DRIVER_CHANNEL_SIZE"

/-- Default advanced-option values (`5 * time.Second` in nanoseconds, batch
size 1000, buffer maximum 10·1000, channel size 4·1000). -/
def defaultPostMessagesFrequency : Int := 5 * 1000000000

def defaultPostMessagesBatchSize : Int := 1000

def defaultBufferMaximum : Int := 10 * 1000

def defaultStreamChannelSize : Int := 4 * 1000

/-- `strconv.ParseBool`: exactly these thirteen strings parse; anything
else is an error. -/
def goParseBool (s : String) : Option Bool :=
  if s = "1" ∨ s = "t" ∨ s = "T" ∨ s = "TRUE" ∨ s = "true" ∨ s = "True" then
    some true
  else if s = "0" ∨ s = "f" ∨ s = "F" ∨ s = "FALSE" ∨ s = "false" ∨ s = "False" then
    some false
  else
    none

/-- Decimal-digit run for `strconv.ParseInt`: every character a digit, at
least one. -/
def decDigits (cs : List Char) : Option Nat :=
  if cs = [] then
    none
  else if cs.all (fun c => decide ('0' ≤ c) && decide (c ≤ '9')) then
    some (cs.foldl (fun acc c => 10 * acc + (c.toNat - 48)) 0)
  else
    none

/-- `strconv.ParseInt(s, 10, 32)`: optional sign, decimal digits, value in
the signed 32-bit range; anything else (including overflow) is an error. -/
def goParseInt32 (s : String) : Option Int :=
  let core : List Char → Bool → Option Int := fun ds neg =>
    match decDigits ds with
    | none => none
    | some n =>
      if neg then
        if n ≤ 2 ^ 31 then some (-(n : Int)) else none
      else
        if n ≤ 2 ^ 31 - 1 then some (n : Int) else none
  match s.data with
  | [] => none
  | '+' :: rest => core rest false
  | '-' :: rest => core rest true
  | cs => core cs false

/-- The parts of a parsed `net/url` URL that `parseURL` inspects
(`IsAbs()` is `scheme ≠ ""`). -/
structure UrlModel where
  scheme : String
  host : String
  path : String
  rawQuery : String
  fragment : String
  deriving DecidableEq, Repr

/-- `parseURL` of the source: the option is required, must parse (the
parser `urlParse` stands for `url.Parse`), must be absolute with scheme
http/https, no path beyond "/", no query, no fragment; the collector path
is then substituted. -/
def parseURL (urlParse : String → Option UrlModel) (config : String → Option String) :
    Except String UrlModel :=
  match config splunkURLKey with
  | none => Except.error "splunk: splunk-url is expected"
  | some urlStr =>
    match urlParse urlStr with
    | none =>
      Except.error ("splunk: failed to parse " ++ urlStr ++ " as url value in splunk-url")
    | some u =>
      if u.scheme = "" ∨ (u.scheme ≠ "http" ∧ u.scheme ≠ "https") ∨
          (u.path ≠ "" ∧ u.path ≠ "/") ∨ u.rawQuery ≠ "" ∨ u.fragment ≠ "" then
        Except.error "splunk: expected format scheme://dns_name_or_ip:port for splunk-url"
      else
        Except.ok { u with path := "/services/collector/event/1.0" }

/-- Outcomes of the external collaborators `New` consults: the host name
lookup, `os.ReadFile` for the CA bundle, `loggerutils.ParseLogTag`,
`info.ExtraAttributes`, `url.Parse`, `time.ParseDuration`, and the
connectivity pre-flight (`verifySplunkConnection`, true = HTTP 200). -/
structure World where
  hostname : Option String
  readFile : String → Option (List Nat)
  parseLogTag : Option String
  extraAttributes : Option (List (String × String))
  urlParse : String → Option UrlModel
  parseDuration : String → Option Int
  verifyConn : Bool

/-- `getAdvancedOptionDuration`: an unset variable or a parse FAILURE both
fall back to the default (the failure is only logged); no error is ever
returned to the caller. -/
def getAdvancedOptionDuration (w : World) (env : String → String) (name : String)
    (defaultValue : Int) : Int :=
  let valueStr := env name
  if valueStr = "" then
    defaultValue
  else
    match w.parseDuration valueStr with
    | none => defaultValue
    | some v => v

/-- `getAdvancedOptionInt`: same fallback-on-failure behavior with
`strconv.ParseInt(valueStr, 10, 32)`. -/
def getAdvancedOptionInt (env : String → String) (name : String)
    (defaultValue : Int) : Int :=
  let valueStr := env name
  if valueStr = "" then
    defaultValue
  else
    match goParseInt32 valueStr with
    | none => defaultValue
    | some v => v

/-- A boolean option parsed with `strconv.ParseBool` when present,
defaulting when absent; a present-but-invalid string is an error
(`insecureskipverify`, `gzip`, `index-acknowledgment`,
`verify-connection`). -/
def parseBoolOpt (config : String → Option String) (key : String) (defaultValue : Bool) :
    Except String Bool :=
  match config key with
  | none => Except.ok defaultValue
  | some s =>
    match goParseBool s with
    | none => Except.error ("invalid syntax parsing " ++ s)
    | some b => Except.ok b

/-- The gzip level option: parsed with `strconv.ParseInt(_, 10, 32)` (error
on bad syntax or overflow), then required to lie between
`gzip.DefaultCompression = -1` and `gzip.BestCompression = 9`. -/
def parseGzipLevel (config : String → Option String) : Except String Int :=
  match config splunkGzipCompressionLevelKey with
  | none => Except.ok (-1)
  | some s =>
    match goParseInt32 s with
    | none => Except.error ("invalid syntax parsing " ++ s)
    | some v =>
      if v < -1 ∨ v > 9 then
        Except.error ("not supported level " ++ s)
      else
        Except.ok v

/-- The format selector: defaults to inline; anything other than `inline`,
`json` or `raw` is the `unknown format specified` error. -/
def selectFormat (config : String → Option String) : Except String String :=
  match config splunkFormatKey with
  | none => Except.ok "inline"
  | some f =>
    if f = "inline" ∨ f = "json" ∨ f = "raw" then
      Except.ok f
    else
      Except.error ("unknown format specified " ++ f)

/-- The validated configuration `New` produces. -/
structure DriverSetup where
  host : String
  url : UrlModel
  auth : String
  gzipCompression : Bool
  gzipCompressionLevel : Int
  indexAck : Bool
  tag : String
  postMessagesFrequency : Int
  postMessagesBatchSize : Int
  bufferMaximum : Int
  streamChannelSize : Int
  format : String
  deriving Repr

/-- `New` of the source, in source order: hostname, URL parse+validation,
required token, `insecureskipverify` bool, CA file read, gzip bool, gzip
level, index-acknowledgment bool, tag template (skipped when the option is
set to the empty string), extra attributes, the four environment-variable
tunables (which never fail), the verify-connection bool and pre-flight
check, and the format selector. -/
def New (w : World) (config : String → Option String) (env : String → String) :
    Except String DriverSetup := do
  let host ← match w.hostname with
    | none => Except.error "splunk: cannot access hostname to set source field"
    | some h => Except.ok h
  let url ← parseURL w.urlParse config
  let token ← match config splunkTokenKey with
    | none => Except.error "splunk: splunk-token is expected"
    | some t => Except.ok t
  let _insecureSkipVerify ← parseBoolOpt config splunkInsecureSkipVerifyKey false
  let _caCert ← match config splunkCAPathKey with
    | none => Except.ok ([] : List Nat)
    | some p =>
      match w.readFile p with
      | none => Except.error ("open " ++ p ++ ": no such file or directory")
      | some bytes => Except.ok bytes
  let gzipCompression ← parseBoolOpt config splunkGzipCompressionKey false
  let gzipCompressionLevel ← parseGzipLevel config
  let indexAck ← parseBoolOpt config splunkIndexAcknowledgment false
  let tag ← match config tagKey with
    | some "" => Except.ok ""
    | _ =>
      match w.parseLogTag with
      | none => Except.error "failed to parse log tag"
      | some t => Except.ok t
  let _extraAttrs ← match w.extraAttributes with
    | none => Except.error "failed to build extra attributes"
    | some a => Except.ok a
  let postMessagesFrequency :=
    getAdvancedOptionDuration w env envVarPostMessagesFrequency defaultPostMessagesFrequency
  let postMessagesBatchSize :=
    getAdvancedOptionInt env envVarPostMessagesBatchSize defaultPostMessagesBatchSize
  let bufferMaximum := getAdvancedOptionInt env envVarBufferMaximum defaultBufferMaximum
  let streamChannelSize := getAdvancedOptionInt env envVarStreamChannelSize defaultStreamChannelSize
  let verifyConnection ← parseBoolOpt config splunkVerifyConnectionKey true
  if verifyConnection = true ∧ w.verifyConn = false then
    Except.error "splunk: failed to verify connection"
  else do
    let format ← selectFormat config
    Except.ok
      { host := host, url := url, auth := "Splunk " ++ token,
        gzipCompression := gzipCompression, gzipCompressionLevel := gzipCompressionLevel,
        indexAck := indexAck, tag := tag,
        postMessagesFrequency := postMessagesFrequency,
        postMessagesBatchSize := postMessagesBatchSize,
        bufferMaximum := bufferMaximum, streamChannelSize := streamChannelSize,
        format := format }

/-- Whether a construction attempt failed (returned a non-nil error). -/
def exceptFailed : Except String β → Bool
  | Except.error _ => true
  | Except.ok _ => false

/-- C9, counterexample to the duration clause: a fully valid configuration
whose `SPLUNK_LOGGING_DRIVER_POST_MESSAGES_FREQUENCY` environment variable
is set to a string the duration parser rejects. The claim says construction
must fail; `getAdvancedOptionDuration` only logs the parse failure and
falls back to the default, and `New` succeeds. -/
def c9World : World :=
  { hostname := some "host1"
    readFile := fun _ => none
    parseLogTag := some "tag1"
    extraAttributes := some []
    urlParse := fun _ =>
      some { scheme := "https", host := "collector:8088", path := "",
             rawQuery := "", fragment := "" }
    parseDuration := fun _ => none
    verifyConn := true }

def c9Config : String → Option String := fun k =>
  if k = splunkURLKey then some "https://collector:8088"
  else if k = splunkTokenKey then some "secret-token"
  else none

def c9Env : String → String := fun k =>
  if k = envVarPostMessagesFrequency then "not-a-duration" else ""

/-- C9, counterexample: with the invalid duration string set, `New`
succeeds (no error is surfaced) and the batch period silently falls back to
the default — the pipeline starts. -/
theorem C9_counterexample_duration :
    c9Env envVarPostMessagesFrequency = "not-a-duration" ∧
    c9World.parseDuration "not-a-duration" = none ∧
    exceptFailed (New c9World c9Config c9Env) = false ∧
    (New c9World c9Config c9Env).toOption.map DriverSetup.postMessagesFrequency =
      some defaultPostMessagesFrequency := by
  refine ⟨rfl, rfl, ?_, ?_⟩ <;> rfl

/-- C9 (amended): every malformed configuration **option string** — missing
URL or token, unparseable or ill-shaped URL, invalid boolean
(`insecureskipverify`, `gzip`, `index-acknowledgment`,
`verify-connection`), invalid or out-of-range gzip compression level, or an
unsupported format selector — makes `New` fail synchronously with an
error, and the pipeline never starts. (The environment-variable tunables —
batch period duration, batch size, buffer maximum, channel size — are NOT
in this list: parse failures there fall back to defaults, see the
counterexample.) -/
theorem C9_construction_errors (w : World) (config : String → Option String)
    (env : String → String) :
    (config splunkURLKey = none → exceptFailed (New w config env) = true) ∧
    (∀ u, config splunkURLKey = some u → w.urlParse u = none →
      exceptFailed (New w config env) = true) ∧
    (∀ u um, config splunkURLKey = some u → w.urlParse u = some um →
      (um.scheme = "" ∨ (um.scheme ≠ "http" ∧ um.scheme ≠ "https") ∨
        (um.path ≠ "" ∧ um.path ≠ "/") ∨ um.rawQuery ≠ "" ∨ um.fragment ≠ "") →
      exceptFailed (New w config env) = true) ∧
    (config splunkTokenKey = none → exceptFailed (New w config env) = true) ∧
    (∀ str, config splunkInsecureSkipVerifyKey = some str → goParseBool str = none →
      exceptFailed (New w config env) = true) ∧
    (∀ str, config splunkGzipCompressionKey = some str → goParseBool str = none →
      exceptFailed (New w config env) = true) ∧
    (∀ str, config splunkGzipCompressionLevelKey = some str → goParseInt32 str = none →
      exceptFailed (New w config env) = true) ∧
    (∀ str v, config splunkGzipCompressionLevelKey = some str → goParseInt32 str = some v →
      (v < -1 ∨ v > 9) → exceptFailed (New w config env) = true) ∧
    (∀ str, config splunkIndexAcknowledgment = some str → goParseBool str = none →
      exceptFailed (New w config env) = true) ∧
    (∀ str, config splunkVerifyConnectionKey = some str → goParseBool str = none →
      exceptFailed (New w config env) = true) ∧
    (∀ f, config splunkFormatKey = some f → f ≠ "inline" → f ≠ "json" → f ≠ "raw" →
      exceptFailed (New w config env) = true) := by
  refine ⟨?_, ?_, ?_, ?_, ?_, ?_, ?_, ?_, ?_, ?_, ?_⟩
  · intro h
    have hbad : parseURL w.urlParse config = Except.error "splunk: splunk-url is expected" := by
      simp [parseURL, h]
    simp only [New, bind, Except.bind, hbad]
    repeat' first
    | rfl
    | split
  · intro u hu hparse
    have hbad : parseURL w.urlParse config =
        Except.error ("splunk: failed to parse " ++ u ++ " as url value in splunk-url") := by
      simp [parseURL, hu, hparse]
    simp only [New, bind, Except.bind, hbad]
    repeat' first
    | rfl
    | split
  · intro u um hu hparse hshape
    have hbad : parseURL w.urlParse config =
        Except.error "splunk: expected format scheme://dns_name_or_ip:port for splunk-url" := by
      simp only [parseURL, hu, hparse]
      rw [if_pos hshape]
    simp only [New, bind, Except.bind, hbad]
    repeat' first
    | rfl
    | split
  · intro h
    simp only [New, bind, Except.bind, h]
    repeat' first
    | rfl
    | split
  · intro str hk hparse
    have hbad : parseBoolOpt config splunkInsecureSkipVerifyKey false =
        Except.error ("invalid syntax parsing " ++ str) := by
      simp [parseBoolOpt, hk, hparse]
    simp only [New, bind, Except.bind, hbad]
    repeat' first
    | rfl
    | split
  · intro str hk hparse
    have hbad : parseBoolOpt config splunkGzipCompressionKey false =
        Except.error ("invalid syntax parsing " ++ str) := by
      simp [parseBoolOpt, hk, hparse]
    simp only [New, bind, Except.bind, hbad]
    repeat' first
    | rfl
    | split
  · intro str hk hparse
    have hbad : parseGzipLevel config = Except.error ("invalid syntax parsing " ++ str) := by
      simp [parseGzipLevel, hk, hparse]
    simp only [New, bind, Except.bind, hbad]
    repeat' first
    | rfl
    | split
  · intro str v hk hparse hrange
    have hbad : parseGzipLevel config = Except.error ("not supported level " ++ str) := by
      simp only [parseGzipLevel, hk, hparse]
      rw [if_pos hrange]
    simp only [New, bind, Except.bind, hbad]
    repeat' first
    | rfl
    | split
  · intro str hk hparse
    have hbad : parseBoolOpt config splunkIndexAcknowledgment false =
        Except.error ("invalid syntax parsing " ++ str) := by
      simp [parseBoolOpt, hk, hparse]
    simp only [New, bind, Except.bind, hbad]
    repeat' first
    | rfl
    | split
  · intro str hk hparse
    have hbad : parseBoolOpt config splunkVerifyConnectionKey true =
        Except.error ("invalid syntax parsing " ++ str) := by
      simp [parseBoolOpt, hk, hparse]
    simp only [New, bind, Except.bind, hbad]
    repeat' first
    | rfl
    | split
  · intro f hk h1 h2 h3
    have hbad : selectFormat config = Except.error ("unknown format specified " ++ f) := by
      simp [selectFormat, hk, h1, h2, h3]
    simp only [New, bind, Except.bind, hbad]
    repeat' first
    | rfl
    | split

/-- Witness for `C9_construction_errors`: the same valid world and
environment as the counterexample, but with the format selector set to the
unsupported value `"xml"` — `New` fails. -/
theorem C9_construction_errors_witness :
    exceptFailed
      (New c9World
        (fun k => if k = splunkFormatKey then some "xml" else c9Config k) c9Env) = true := by
  have h := (C9_construction_errors c9World
    (fun k => if k = splunkFormatKey then some "xml" else c9Config k) c9Env)
  exact h.2.2.2.2.2.2.2.2.2.2 "xml" rfl (by decide) (by decide) (by decide)

end Splunk
